import Mathlib

/- Shallow embedding of `src/index.js` of the unrk-bot repository: the
preference store (`soundMappings`, load/save), the sound catalog
(`getAvailableSounds`, `getRandomSound`), the resolver (`getSoundForUser`),
the `setsound` / `addsound` / `stop` / `random` command handlers, and the
`voiceStateUpdate` / connection / player event handlers together with the
`activeConnections` registry.

Modelling conventions:
* JS objects used as string maps become association lists with JS
  semantics (`assocLookup`, `assocSet`); JS truthiness of a string-or-undefined
  value is `jsTruthy` (undefined and the empty string are falsy).
* `String.prototype.endsWith` is `jsEndsWith` (suffix test on character
  data).
* The `sounds` directory is `Option (List String)`: `none` models a
  directory whose `readdirSync` throws, `some files` its file names.
* `Math.floor(Math.random() * n)` is modelled by `rand % n` for an
  arbitrary caller-supplied `rand : Nat`, covering every possible index.
* File-system and network outcomes that the code observes only as
  success/failure (`writeFileSync` in `saveSoundMappings`, `fetch` in
  `addsound`, `entersState(..., Ready, 5000)`, the reconnect race) are
  boolean parameters of the corresponding step functions.
* Voice connections are handles with an id, a guild, and a `destroyed`
  flag; `joinVoiceChannel` follows the documented interface of the
  platform voice library: it returns the existing non-destroyed
  connection tracked for the guild when one exists, and only otherwise
  creates a fresh handle.  `activeConnections` is an association
  list from guild id to connection id.  Asynchronous callbacks
  (`connection.on(Ready, ...)`, `player.once('stateChange', ...)`,
  `connection.on(Disconnected, ...)`) are modelled as separate events on
  a single serialized control flow, with `once` listeners removed when
  the first subsequent event fires, as in Node's EventEmitter.
-/

namespace UnrkBot

abbrev SoundName := String

/-- JS `s.endsWith(suffix)`. -/
def jsEndsWith (s suffix : String) : Bool :=
  suffix.data.isSuffixOf s.data

/-- String-keyed association lookup, modelling both JS object index reads
`obj[k]` and `Map.prototype.get`: `none` models `undefined`. -/
def assocLookup {α : Type} (m : List (String × α)) (k : String) : Option α :=
  (m.find? (fun p => p.1 == k)).map (fun p => p.2)

/-- String-keyed association write, modelling both JS object index writes
`obj[k] = v` and `Map.prototype.set`: overwrite in place if the key is
present, otherwise append (JS objects and Maps keep insertion order). -/
def assocSet {α : Type} (m : List (String × α)) (k : String) (v : α) : List (String × α) :=
  if m.any (fun p => p.1 == k) then
    m.map (fun p => if p.1 == k then (k, v) else p)
  else m ++ [(k, v)]

/-- String-keyed association removal, modelling `Map.prototype.delete`. -/
def assocDelete {α : Type} (m : List (String × α)) (k : String) : List (String × α) :=
  m.filter (fun p => !(p.1 == k))

/-- JS truthiness of a possibly-undefined string: `undefined` and `""` are
falsy, every other string is truthy. -/
def jsTruthy : Option String → Bool
  | none => false
  | some s => s != ""

/-- The persisted record `soundMappings`.  The source file only ever
creates and reads the `channelSounds` and `userSounds` keys; a
`defaultSound` key, if present in the JSON file, is carried along (JSON
round-trips unknown keys) but never read by any code path. -/
structure PreferenceMapping where
  channelSounds : List (String × String)
  userSounds : List (String × String)
  defaultSound : Option SoundName
deriving Repr, DecidableEq

/-- Outcome of `readFileSync('soundMappings.json')` followed by
`JSON.parse`: either a parsed mapping, or one of the failure modes that
make the `try` block throw. -/
inductive ReadResult where
  | ok (m : PreferenceMapping)
  | absent
  | unreadable
  | malformed
deriving Repr, DecidableEq

/-- The module-load `try/catch` around `JSON.parse(readFileSync(...))`
(src/index.js lines 16-25): on any failure the catch branch installs the
literal `{ channelSounds: {}, userSounds: {} }` (its missing
`defaultSound` key reads back as `undefined`, modelled `none`). -/
def loadSoundMappings : ReadResult → PreferenceMapping
  | .ok m => m
  | .absent => { channelSounds := [], userSounds := [], defaultSound := none }
  | .unreadable => { channelSounds := [], userSounds := [], defaultSound := none }
  | .malformed => { channelSounds := [], userSounds := [], defaultSound := none }

/-- `saveSoundMappings` (lines 28-37): `writeFileSync` either succeeds
(return `true`) or throws and the catch returns `false`; `ioOk` is the
write outcome. -/
def saveSoundMappings (ioOk : Bool) : Bool := ioOk

/-- `getAvailableSounds` (lines 40-47): list the sounds directory and keep
the `.mp3` files; if `readdirSync` throws, return `[]`. -/
def getAvailableSounds (dir : Option (List String)) : List String :=
  match dir with
  | some files => files.filter (fun f => jsEndsWith f ".mp3")
  | none => []

/-- `getRandomSound` (lines 50-55): `null` on an empty catalog, otherwise
the entry at index `Math.floor(Math.random() * length)`, modelled as
`rand % length`. -/
def getRandomSound (dir : Option (List String)) (rand : Nat) : Option String :=
  let sounds := getAvailableSounds dir
  if sounds.length = 0 then none
  else sounds[rand % sounds.length]?

/-- `getSoundForUser` (lines 382-409): user-specific sound if truthy, else
channel-specific sound if truthy, else a random catalog sound if truthy,
else `null`.  No catalog-membership check is made on the mapped names and
no default-sound step exists. -/
def getSoundForUser (m : PreferenceMapping) (dir : Option (List String))
    (rand : Nat) (userId channelId : String) : Option SoundName :=
  if jsTruthy (assocLookup m.userSounds userId) then
    assocLookup m.userSounds userId
  else if jsTruthy (assocLookup m.channelSounds channelId) then
    assocLookup m.channelSounds channelId
  else
    let r := getRandomSound dir rand
    if jsTruthy r then r else none

/-- Reply sent by the `setsound` subcommand handler. -/
inductive SetsoundReply where
  | invalidSound
  | success
  | saveError
deriving Repr, DecidableEq

/-- The `type` option of `/unrk setsound`. -/
inductive SetKind where
  | channel
  | user
deriving Repr, DecidableEq

/-- The `setsound` subcommand handler (lines 333-356): validate the sound
against `getAvailableSounds()`, mutate the in-memory `soundMappings`, then
call `saveSoundMappings` (write outcome `saveOk`) and report accordingly.
Returns the in-memory mapping after the handler together with the reply. -/
def setsoundHandler (m : PreferenceMapping) (dir : Option (List String))
    (ty : SetKind) (sound : String) (channelId userId : String)
    (saveOk : Bool) : PreferenceMapping × SetsoundReply :=
  let availableSounds := getAvailableSounds dir
  if !(availableSounds.contains sound) then (m, .invalidSound)
  else
    let m2 :=
      match ty with
      | .channel => { m with channelSounds := assocSet m.channelSounds channelId sound }
      | .user => { m with userSounds := assocSet m.userSounds userId sound }
    if saveSoundMappings saveOk then (m2, .success) else (m2, .saveError)

/-- Reply sent by the `addsound` subcommand handler. -/
inductive AddsoundReply where
  | notMp3
  | alreadyExists
  | added
  | addError
deriving Repr, DecidableEq

/-- The `addsound` subcommand handler (lines 208-237) acting on the sounds
directory (as a list of file names): reject a declared attachment name not
ending in `.mp3`; reject when `sounds/<name>.mp3` already exists; then
download (`fetchOk` models the fetch/write `try` succeeding) and write the
file.  Returns the directory contents after the handler and the reply. -/
def addsoundHandler (dir : List String) (attachmentName : String)
    (name : String) (fetchOk : Bool) : List String × AddsoundReply :=
  let fileName := name ++ ".mp3"
  if !(jsEndsWith attachmentName ".mp3") then (dir, .notMp3)
  else if dir.contains fileName then (dir, .alreadyExists)
  else if fetchOk then (dir ++ [fileName], .added)
  else (dir, .addError)

/-- A voice-connection handle as the session manager sees it: its identity,
the guild it was created for, and whether `destroy()` has been called on
it. -/
structure Conn where
  id : Nat
  guild : String
  destroyed : Bool
deriving Repr, DecidableEq

/-- The mutable module state the event handlers touch: every connection
handle created so far (`conns`), the `activeConnections` map (guild id to
connection id), the pending `player.once('stateChange', ...)` listeners
(each capturing the guild id and connection of its registration site), and
a fresh-id counter. -/
structure BotState where
  conns : List Conn
  active : List (String × Nat)
  onceHandlers : List (String × Nat)
  nextId : Nat
deriving Repr, DecidableEq

def initialState : BotState := { conns := [], active := [], onceHandlers := [], nextId := 0 }

/-- `connection.destroy()`: mark the handle destroyed. -/
def destroyConn (conns : List Conn) (cid : Nat) : List Conn :=
  conns.map (fun c => if c.id == cid then { c with destroyed := true } else c)

/-- The recurring teardown pair `connection.destroy();
activeConnections.delete(guildId)`. -/
def teardown (s : BotState) (cid : Nat) (g : String) : BotState :=
  { s with conns := destroyConn s.conns cid, active := assocDelete s.active g }

/-- A connection id is live when some created handle with that id is not
destroyed. -/
def connLive (s : BotState) (cid : Nat) : Bool :=
  s.conns.any (fun c => c.id == cid && !c.destroyed)

/-- The voice library connection tracked for a guild: the non-destroyed
connection handle for that guild, when one exists.  Models the per-guild
registry `@discordjs/voice` maintains, from which destroyed connections
are untracked. -/
def getLiveConn (conns : List Conn) (g : String) : Option Nat :=
  (conns.find? (fun c => c.guild == g && !c.destroyed)).map (fun c => c.id)

/-- `joinVoiceChannel` at the documented interface of the platform voice
library (`@discordjs/voice`): when a non-destroyed connection already
exists for the guild it is returned (rejoined/reconfigured), and only
otherwise is a fresh connection created.  Returns the updated state and
the id of the returned connection. -/
def joinVoiceChannel (s : BotState) (g : String) : BotState × Nat :=
  match getLiveConn s.conns g with
  | some cid => (s, cid)
  | none =>
    ({ s with
       conns := s.conns ++ [Conn.mk s.nextId g false],
       nextId := s.nextId + 1 }, s.nextId)

/-- `joinVoiceChannel` + `activeConnections.set` as performed by both join
paths: obtain the connection for the guild (reused or fresh) and store it
under the guild id.  Returns the updated state and the connection id. -/
def joinAndStore (s : BotState) (g : String) : BotState × Nat :=
  let jr := joinVoiceChannel s g
  ({ jr.1 with active := assocSet jr.1.active g jr.2 }, jr.2)

/-- The `voiceStateUpdate` handler (lines 412-539).  Join branch
(`!oldState.channelId && newState.channelId`): create a fresh connection
and store it, unconditionally — the registry is not consulted.  Leave
branch (`oldState.channelId && !newState.channelId && connection`): if the
left channel retains zero non-bot members, destroy and delete.  A move
(both channel ids set) and a no-channel update take neither branch.
`nonBotRemaining` is the non-bot member count of `oldState.channel` after
the update. -/
def voiceStateUpdateStep (s : BotState) (g : String)
    (oldChannelId newChannelId : Option String) (nonBotRemaining : Nat) : BotState :=
  match oldChannelId, newChannelId with
  | none, some _ => (joinAndStore s g).1
  | some _, none =>
    match assocLookup s.active g with
    | some cid => if nonBotRemaining == 0 then teardown s cid g else s
    | none => s
  | _, _ => s

/-- The `stop` subcommand (lines 195-207): destroy and delete when a
connection is registered, else reply that none is active.  The boolean
reports whether one was active. -/
def stopStep (s : BotState) (g : String) : BotState × Bool :=
  match assocLookup s.active g with
  | some cid => (teardown s cid g, true)
  | none => (s, false)

/-- Reply sent by the `random` subcommand handler. -/
inductive RandomReply where
  | needVoice
  | joinFailed
  | playing (sound : String)
  | noSounds
  | playError
deriving Repr, DecidableEq

/-- The playback part shared by the `random` subcommand (lines 276-331):
pick a random sound; if one exists and its file is still present,
subscribe and play, registering a `player.once('stateChange')` listener
that captures this guild and connection; a missing file throws into the
catch, which only edits the reply (no teardown). -/
def randomPlayPart (s : BotState) (g : String) (cid : Nat)
    (dir : Option (List String)) (rand : Nat) : BotState × RandomReply :=
  match getRandomSound dir rand with
  | some soundFile =>
    if (match dir with | some files => files.contains soundFile | none => false) then
      ({ s with onceHandlers := s.onceHandlers ++ [(g, cid)] }, .playing soundFile)
    else (s, .playError)
  | none => (s, .noSounds)

/-- The `random` subcommand handler (lines 239-332).  With no registered
connection it joins the invoker's channel, stores the connection, and
waits for `Ready` (outcome `readyOk`); on timeout/error it only replies
with failure — the catch block (lines 269-273) neither destroys the
connection nor deletes the registry entry.  With a registered connection
it skips joining.  Then the playback part runs. -/
def randomCmdStep (s : BotState) (g : String) (memberChannel : Option String)
    (readyOk : Bool) (dir : Option (List String)) (rand : Nat) : BotState × RandomReply :=
  match memberChannel with
  | none => (s, .needVoice)
  | some _ =>
    match assocLookup s.active g with
    | some cid => randomPlayPart s g cid dir rand
    | none =>
      let jr := joinAndStore s g
      if readyOk then randomPlayPart jr.1 g jr.2 dir rand
      else (jr.1, .joinFailed)

/-- The `connection.on(Ready)` callback registered by the
`voiceStateUpdate` join branch (lines 436-499): resolve a sound for the
joining user; tear down when none resolves; tear down (via the catch)
when the resolved file no longer exists; otherwise subscribe, play, and
register a `player.once('stateChange')` listener capturing this guild and
connection. -/
def connectionReadyStep (s : BotState) (g : String) (cid : Nat)
    (m : PreferenceMapping) (dir : Option (List String))
    (userId channelId : String) (rand : Nat) : BotState :=
  match getSoundForUser m dir rand userId channelId with
  | none => teardown s cid g
  | some soundFile =>
    if (match dir with | some files => files.contains soundFile | none => false) then
      { s with onceHandlers := s.onceHandlers ++ [(g, cid)] }
    else teardown s cid g

/-- Audio-player states of the shared `createAudioPlayer()` sink. -/
inductive PlayerStatus where
  | idle
  | buffering
  | playing
  | paused
  | autoPaused
deriving Repr, DecidableEq

/-- A `stateChange` emission of the shared player: every pending `once`
listener is removed and invoked (Node EventEmitter semantics); each
listener body (lines 317-323 and 486-492) destroys its captured connection
and deletes its guild's registry entry only when the new status is
`idle`. -/
def playerStateChangeStep (s : BotState) (newStatus : PlayerStatus) : BotState :=
  let hs := s.onceHandlers
  let s0 := { s with onceHandlers := [] }
  if newStatus == PlayerStatus.idle then
    hs.foldl (fun acc h => teardown acc h.2 h.1) s0
  else s0

/-- The `connection.on(Disconnected)` callback (lines 508-521): race two
5-second waits for Signalling/Connecting (outcome `reconnectOk`); on
failure destroy the connection and delete the registry entry. -/
def connectionDisconnectedStep (s : BotState) (g : String) (cid : Nat)
    (reconnectOk : Bool) : BotState :=
  if reconnectOk then s else teardown s cid g

/-- The `connection.on('error')` callback (lines 502-505): delete the
registry entry (the connection itself is not destroyed here). -/
def connectionErrorStep (s : BotState) (g : String) : BotState :=
  { s with active := assocDelete s.active g }

/-- The session-affecting events the source reacts to. -/
inductive Event where
  | voiceUpdate (guildId : String) (oldChannelId newChannelId : Option String) (nonBotRemaining : Nat)
  | stopCmd (guildId : String)
  | randomCmd (guildId : String) (memberChannel : Option String) (readyOk : Bool) (rand : Nat)
  | connectionReady (guildId : String) (connId : Nat) (userId channelId : String) (rand : Nat)
  | playerStateChange (newStatus : PlayerStatus)
  | connectionDisconnected (guildId : String) (connId : Nat) (reconnectOk : Bool)
  | connectionError (guildId : String)
deriving Repr, DecidableEq

/-- One step of the serialized event loop, with the current in-memory
`soundMappings` and sounds directory fixed. -/
def step (m : PreferenceMapping) (dir : Option (List String)) (s : BotState) : Event → BotState
  | .voiceUpdate g o n nb => voiceStateUpdateStep s g o n nb
  | .stopCmd g => (stopStep s g).1
  | .randomCmd g mc ok rand => (randomCmdStep s g mc ok dir rand).1
  | .connectionReady g cid u c rand => connectionReadyStep s g cid m dir u c rand
  | .playerStateChange st => playerStateChangeStep s st
  | .connectionDisconnected g cid ok => connectionDisconnectedStep s g cid ok
  | .connectionError g => connectionErrorStep s g

/-- Run a sequence of events from the fresh-process state. -/
def run (m : PreferenceMapping) (dir : Option (List String)) (events : List Event) : BotState :=
  events.foldl (step m dir) initialState

/-- Invariant of the session-manager state, maintained by every event step
from the fresh-process state: connection ids stay below the counter and
are pairwise distinct, every registry entry points to a created connection
of its own guild, and at most one non-destroyed connection exists per
guild (the voice library's per-guild tracking discipline). -/
def StateInv (s : BotState) : Prop :=
  (∀ c ∈ s.conns, c.id < s.nextId) ∧
  ((s.conns.map Conn.id).Nodup) ∧
  (∀ p ∈ s.active, ∃ c ∈ s.conns, c.id = p.2 ∧ c.guild = p.1) ∧
  (∀ c1 ∈ s.conns, ∀ c2 ∈ s.conns, c1.destroyed = false → c2.destroyed = false →
    c1.guild = c2.guild → c1 = c2)

end UnrkBot

/- Helper lemmas about the embedded primitives. -/

namespace UnrkBot

theorem jsEndsWith_append (s t : String) : jsEndsWith (s ++ t) t = true := by
  rw [jsEndsWith, List.isSuffixOf_iff_suffix, String.data_append]
  exact List.suffix_append s.data t.data

theorem endsWith_of_mem_getAvailableSounds {a : String} {dir : Option (List String)}
    (h : a ∈ getAvailableSounds dir) : jsEndsWith a ".mp3" = true := by
  cases dir with
  | none => simp [getAvailableSounds] at h
  | some files => exact (List.mem_filter.mp h).2

theorem ne_empty_of_mem_getAvailableSounds {a : String} {dir : Option (List String)}
    (h : a ∈ getAvailableSounds dir) : a ≠ "" := by
  have h2 := endsWith_of_mem_getAvailableSounds h
  rw [jsEndsWith, List.isSuffixOf_iff_suffix] at h2
  intro he
  subst he
  have h3 := List.IsSuffix.length_le h2
  simp [String.data] at h3

theorem getRandomSound_mem {dir : Option (List String)} {rand : Nat} {a : String}
    (h : getRandomSound dir rand = some a) : a ∈ getAvailableSounds dir := by
  rw [getRandomSound] at h
  by_cases hl : (getAvailableSounds dir).length = 0
  · rw [if_pos hl] at h
    exact absurd h (by simp)
  · rw [if_neg hl] at h
    exact List.getElem?_mem h

theorem find_overwrite {α : Type} (l : List (String × α)) (k : String) (v : α)
    (h : l.any (fun p => p.1 == k) = true) :
    (l.map (fun p => if p.1 == k then (k, v) else p)).find? (fun p => p.1 == k) = some (k, v) := by
  induction l with
  | nil => simp at h
  | cons p l ih =>
    by_cases hp : (p.1 == k) = true
    · simp only [List.map_cons, if_pos hp]
      rw [List.find?_cons_of_pos]
      simp
    · simp only [List.map_cons, if_neg hp]
      rw [List.find?_cons_of_neg]
      · apply ih
        simp only [List.any_cons, hp, Bool.false_or] at h
        exact h
      · simpa using hp

theorem find_absent {α : Type} (l : List (String × α)) (k : String)
    (h : l.any (fun p => p.1 == k) = false) :
    l.find? (fun p => p.1 == k) = none := by
  rw [List.find?_eq_none]
  intro x hx
  exact List.any_eq_false.mp h x hx

theorem find_overwrite_ne {α : Type} (l : List (String × α)) (k k2 : String) (v : α)
    (hne : k2 ≠ k) :
    (l.map (fun p => if p.1 == k then (k, v) else p)).find? (fun p => p.1 == k2) =
      l.find? (fun p => p.1 == k2) := by
  induction l with
  | nil => rfl
  | cons p l ih =>
    simp only [List.map_cons]
    by_cases hp : (p.1 == k) = true
    · have hk : p.1 = k := eq_of_beq hp
      have hfalse : (k == k2) = false := by
        rw [beq_eq_false_iff_ne]
        exact fun hc => hne hc.symm
      rw [List.find?_cons_of_neg, List.find?_cons_of_neg]
      · exact ih
      · rw [hk]; simp [hfalse]
      · simp [hp, hfalse]
    · simp only [if_neg hp]
      rw [List.find?_cons, List.find?_cons]
      by_cases hp2 : (p.1 == k2) = true
      · simp [hp2]
      · rw [Bool.not_eq_true] at hp2
        simp only [hp2]
        exact ih

theorem assocLookup_assocSet_self {α : Type} (m : List (String × α)) (k : String) (v : α) :
    assocLookup (assocSet m k v) k = some v := by
  rw [assocLookup, assocSet]
  by_cases h : m.any (fun p => p.1 == k) = true
  · rw [if_pos h, find_overwrite m k v h]
    rfl
  · rw [if_neg h, List.find?_append, find_absent m k (Bool.eq_false_iff.mpr h)]
    simp [List.find?]

theorem assocLookup_assocSet_ne {α : Type} (m : List (String × α)) (k k2 : String) (v : α)
    (hne : k2 ≠ k) : assocLookup (assocSet m k v) k2 = assocLookup m k2 := by
  rw [assocLookup, assocSet, assocLookup]
  by_cases h : m.any (fun p => p.1 == k) = true
  · rw [if_pos h, find_overwrite_ne m k k2 v hne]
  · rw [if_neg h, List.find?_append]
    have hsingle : ([(k, v)].find? (fun p => p.1 == k2)) = none := by
      rw [List.find?_eq_none]
      intro x hx
      simp only [List.mem_singleton] at hx
      subst hx
      simp only [Bool.not_eq_true, beq_eq_false_iff_ne]
      exact fun hc => hne hc.symm
    rw [hsingle, Option.or_none]

theorem assocLookup_assocDelete_self {α : Type} (m : List (String × α)) (k : String) :
    assocLookup (assocDelete m k) k = none := by
  rw [assocLookup, assocDelete]
  have hfind : (m.filter (fun p => !(p.1 == k))).find? (fun p => p.1 == k) = none := by
    rw [List.find?_eq_none]
    intro x hx
    have h2 := (List.mem_filter.mp hx).2
    simp only [Bool.not_eq_true'] at h2
    simp [h2]
  rw [hfind]
  rfl

theorem contains_iff_mem {a : String} {l : List String} : l.contains a = true ↔ a ∈ l := by
  rw [List.contains_eq_any_beq, List.any_eq_true]
  constructor
  · rintro ⟨x, hx, hax⟩
    rw [eq_of_beq hax]
    exact hx
  · intro h
    exact ⟨a, h, by simp⟩

end UnrkBot

namespace UnrkBot

theorem keys_assocSet_nodup {α : Type} (m : List (String × α)) (k : String) (v : α)
    (h : (m.map Prod.fst).Nodup) : ((assocSet m k v).map Prod.fst).Nodup := by
  rw [assocSet]
  by_cases hc : m.any (fun p => p.1 == k) = true
  · rw [if_pos hc]
    have hkeys : (m.map (fun p => if p.1 == k then (k, v) else p)).map Prod.fst
        = m.map Prod.fst := by
      rw [List.map_map]
      apply List.map_congr_left
      intro p _
      by_cases hp : (p.1 == k) = true
      · simp only [Function.comp, if_pos hp]
        exact (eq_of_beq hp).symm
      · simp only [Function.comp, if_neg hp]
    rw [hkeys]
    exact h
  · rw [if_neg hc, List.map_append, List.map_singleton, List.nodup_append]
    refine ⟨h, List.nodup_singleton _, ?_⟩
    rw [List.disjoint_singleton]
    intro hk
    apply hc
    rw [List.any_eq_true]
    rcases List.mem_map.mp hk with ⟨p, hp, hpk⟩
    exact ⟨p, hp, by rw [hpk]; simp⟩

theorem keys_assocDelete_nodup {α : Type} (m : List (String × α)) (k : String)
    (h : (m.map Prod.fst).Nodup) : ((assocDelete m k).map Prod.fst).Nodup :=
  List.Nodup.sublist (List.Sublist.map Prod.fst (List.filter_sublist m)) h

theorem teardown_keys_nodup (s : BotState) (cid : Nat) (g : String)
    (h : (s.active.map Prod.fst).Nodup) :
    ((teardown s cid g).active.map Prod.fst).Nodup := by
  rw [teardown]
  exact keys_assocDelete_nodup s.active g h

theorem randomPlayPart_active (s : BotState) (g : String) (cid : Nat)
    (dir : Option (List String)) (rand : Nat) :
    (randomPlayPart s g cid dir rand).1.active = s.active := by
  unfold randomPlayPart
  split
  · split
    · rfl
    · rfl
  · rfl

theorem joinVoiceChannel_active (s : BotState) (g : String) :
    (joinVoiceChannel s g).1.active = s.active := by
  unfold joinVoiceChannel
  split
  · rfl
  · rfl

theorem joinAndStore_keys_nodup (s : BotState) (g : String)
    (h : (s.active.map Prod.fst).Nodup) :
    (((joinAndStore s g).1).active.map Prod.fst).Nodup := by
  show ((assocSet (joinVoiceChannel s g).1.active g (joinVoiceChannel s g).2).map Prod.fst).Nodup
  rw [joinVoiceChannel_active]
  exact keys_assocSet_nodup s.active g (joinVoiceChannel s g).2 h

theorem step_keys_nodup (m : PreferenceMapping) (dir : Option (List String))
    (s : BotState) (e : Event) (h : (s.active.map Prod.fst).Nodup) :
    ((step m dir s e).active.map Prod.fst).Nodup := by
  cases e with
  | voiceUpdate g o n nb =>
    show ((voiceStateUpdateStep s g o n nb).active.map Prod.fst).Nodup
    unfold voiceStateUpdateStep
    split
    · exact joinAndStore_keys_nodup s g h
    · split
      · split
        · exact teardown_keys_nodup _ _ _ h
        · exact h
      · exact h
    · exact h
  | stopCmd g =>
    show (((stopStep s g).1).active.map Prod.fst).Nodup
    unfold stopStep
    split
    · exact teardown_keys_nodup _ _ _ h
    · exact h
  | randomCmd g mc ok rand =>
    show (((randomCmdStep s g mc ok dir rand).1).active.map Prod.fst).Nodup
    unfold randomCmdStep
    split
    · exact h
    · split
      · rw [randomPlayPart_active]
        exact h
      · split
        · rw [randomPlayPart_active]
          exact joinAndStore_keys_nodup s g h
        · exact joinAndStore_keys_nodup s g h
  | connectionReady g cid u c rand =>
    show ((connectionReadyStep s g cid m dir u c rand).active.map Prod.fst).Nodup
    unfold connectionReadyStep
    split
    · exact teardown_keys_nodup _ _ _ h
    · split
      · exact h
      · exact teardown_keys_nodup _ _ _ h
  | playerStateChange st =>
    show ((playerStateChangeStep s st).active.map Prod.fst).Nodup
    unfold playerStateChangeStep
    have hfold : ∀ (hs2 : List (String × Nat)) (s2 : BotState),
        (s2.active.map Prod.fst).Nodup →
        (((hs2.foldl (fun acc h2 => teardown acc h2.2 h2.1) s2)).active.map Prod.fst).Nodup := by
      intro hs2
      induction hs2 with
      | nil => intro s2 h2; exact h2
      | cons p rest ih =>
        intro s2 h2
        exact ih _ (teardown_keys_nodup s2 p.2 p.1 h2)
    split
    · exact hfold s.onceHandlers _ h
    · exact h
  | connectionDisconnected g cid ok =>
    show ((connectionDisconnectedStep s g cid ok).active.map Prod.fst).Nodup
    unfold connectionDisconnectedStep
    split
    · exact h
    · exact teardown_keys_nodup _ _ _ h
  | connectionError g =>
    show ((connectionErrorStep s g).active.map Prod.fst).Nodup
    exact keys_assocDelete_nodup s.active g h

theorem run_keys_nodup (m : PreferenceMapping) (dir : Option (List String))
    (events : List Event) : (((run m dir events).active.map Prod.fst)).Nodup := by
  rw [run]
  have hgen : ∀ (es : List Event) (s : BotState), (s.active.map Prod.fst).Nodup →
      (((es.foldl (step m dir) s)).active.map Prod.fst).Nodup := by
    intro es
    induction es with
    | nil => intro s h; exact h
    | cons e rest ih =>
      intro s h
      exact ih _ (step_keys_nodup m dir s e h)
  exact hgen events initialState (by simp [initialState])

theorem destroyConn_not_live (l : List Conn) (cid : Nat) :
    (destroyConn l cid).any (fun c => c.id == cid && !c.destroyed) = false := by
  induction l with
  | nil => rfl
  | cons c l ih =>
    rw [destroyConn] at ih ⊢
    rw [List.map_cons, List.any_cons, ih, Bool.or_false]
    by_cases hc : (c.id == cid) = true
    · rw [if_pos hc]
      simp
    · rw [if_neg hc]
      simp [Bool.eq_false_iff.mpr hc]

theorem connLive_teardown_self (s : BotState) (cid : Nat) (g : String) :
    connLive (teardown s cid g) cid = false := by
  rw [connLive, teardown]
  exact destroyConn_not_live s.conns cid

end UnrkBot

/- Claim theorems. -/

namespace UnrkBot

/-- C1, counterexample to the claim as stated: with `userSounds = {U: "gone.mp3"}`
and a catalog containing only `a.mp3`, `getSoundForUser` returns the stale
name `gone.mp3` even though it is absent from the catalog — it does not
fall through. -/
theorem C1_counterexample :
    getSoundForUser { channelSounds := [], userSounds := [("U", "gone.mp3")], defaultSound := none }
      (some ["a.mp3"]) 0 "U" "C" = some "gone.mp3" ∧
    "gone.mp3" ∉ getAvailableSounds (some ["a.mp3"]) := by
  refine ⟨rfl, ?_⟩
  decide

/-- C1 (amended): a set (non-empty) user-sound is returned by
`getSoundForUser` without any catalog-membership check, stale or not, and
without error; only when neither a user-sound nor a channel-sound applies
is the result drawn from the catalog (hence a member of it) or `none`.
There is no default-sound step. -/
theorem C1_stale_user_sound_amended (m : PreferenceMapping) (dir : Option (List String))
    (rand : Nat) (userId channelId : String) :
    (jsTruthy (assocLookup m.userSounds userId) = true →
      getSoundForUser m dir rand userId channelId = assocLookup m.userSounds userId) ∧
    (jsTruthy (assocLookup m.userSounds userId) = false →
      jsTruthy (assocLookup m.channelSounds channelId) = false →
      ∀ a, getSoundForUser m dir rand userId channelId = some a →
        a ∈ getAvailableSounds dir) := by
  constructor
  · intro hu
    simp only [getSoundForUser, hu, if_true]
  · intro hu hc a ha
    simp only [getSoundForUser, hu, hc, Bool.false_eq_true, if_false] at ha
    by_cases hr : jsTruthy (getRandomSound dir rand) = true
    · rw [if_pos hr] at ha
      exact getRandomSound_mem ha
    · rw [if_neg hr] at ha
      exact absurd ha (by simp)

/-- Witness for C1: a concrete stale mapping entry is returned verbatim. -/
theorem C1_witness :
    getSoundForUser { channelSounds := [], userSounds := [("U2", "stale.mp3")], defaultSound := none }
      (some []) 1 "U2" "C2" = assocLookup [("U2", "stale.mp3")] "U2" :=
  (C1_stale_user_sound_amended
    { channelSounds := [], userSounds := [("U2", "stale.mp3")], defaultSound := none }
    (some []) 1 "U2" "C2").1 (by decide)

/-- C2, counterexample to the claim as stated: with no user- or channel-sound,
`defaultSound = "b.mp3"` set and present in the catalog, `getSoundForUser`
can return `a.mp3` (the random pick), not the default. -/
theorem C2_counterexample :
    getSoundForUser { channelSounds := [], userSounds := [], defaultSound := some "b.mp3" }
      (some ["a.mp3", "b.mp3"]) 0 "U" "C" = some "a.mp3" ∧
    ({ channelSounds := [], userSounds := [], defaultSound := some "b.mp3" } : PreferenceMapping).defaultSound
      = some "b.mp3" ∧
    "b.mp3" ∈ getAvailableSounds (some ["a.mp3", "b.mp3"]) ∧
    (some "a.mp3" : Option String) ≠ some "b.mp3" := by
  refine ⟨rfl, rfl, ?_, ?_⟩
  · decide
  · decide

/-- C2 (amended): the resolver has no default-sound rule — its result never
depends on `defaultSound`, and with no applicable user- or channel-sound it
returns `getRandomSound` directly (a uniformly random catalog pick, or
`none` on an empty catalog). -/
theorem C2_no_default_rule_amended (m : PreferenceMapping) (dir : Option (List String))
    (rand : Nat) (userId channelId : String) :
    (∀ dS, getSoundForUser { m with defaultSound := dS } dir rand userId channelId =
      getSoundForUser m dir rand userId channelId) ∧
    (jsTruthy (assocLookup m.userSounds userId) = false →
      jsTruthy (assocLookup m.channelSounds channelId) = false →
      getSoundForUser m dir rand userId channelId = getRandomSound dir rand) := by
  constructor
  · intro dS
    rfl
  · intro hu hc
    simp only [getSoundForUser, hu, hc, Bool.false_eq_true, if_false]
    cases hr : getRandomSound dir rand with
    | none => simp [jsTruthy]
    | some a =>
      have ha : a ≠ "" := ne_empty_of_mem_getAvailableSounds (getRandomSound_mem hr)
      simp [jsTruthy, ha]

/-- Witness for C2: concrete resolution with no preferences equals the raw
random pick. -/
theorem C2_witness :
    getSoundForUser { channelSounds := [], userSounds := [], defaultSound := none }
      (some ["c.mp3"]) 2 "U3" "C3" = getRandomSound (some ["c.mp3"]) 2 :=
  (C2_no_default_rule_amended { channelSounds := [], userSounds := [], defaultSound := none }
    (some ["c.mp3"]) 2 "U3" "C3").2 (by decide) (by decide)

/-- C7 (confirmed): for each failing read of the backing preference file —
absent, unreadable, or malformed — `loadSoundMappings` returns the fresh
empty mapping (`channelSounds = {}`, `userSounds = {}`, `defaultSound`
unset) and, being a total function, never raises. -/
theorem C7_load_fails_soft :
    loadSoundMappings ReadResult.absent =
      { channelSounds := [], userSounds := [], defaultSound := none } ∧
    loadSoundMappings ReadResult.unreadable =
      { channelSounds := [], userSounds := [], defaultSound := none } ∧
    loadSoundMappings ReadResult.malformed =
      { channelSounds := [], userSounds := [], defaultSound := none } :=
  ⟨rfl, rfl, rfl⟩

end UnrkBot

namespace UnrkBot

/-- C8, counterexample to the claim as stated: a `setsound` whose save
fails reports failure, but the in-memory mapping has already been mutated
— the prior (empty) `userSounds` is not preserved. -/
theorem C8_counterexample :
    (setsoundHandler { channelSounds := [], userSounds := [], defaultSound := none }
      (some ["a.mp3"]) SetKind.user "a.mp3" "C" "U" false).2 = SetsoundReply.saveError ∧
    (setsoundHandler { channelSounds := [], userSounds := [], defaultSound := none }
      (some ["a.mp3"]) SetKind.user "a.mp3" "C" "U" false).1.userSounds = [("U", "a.mp3")] ∧
    ([("U", "a.mp3")] : List (String × String)) ≠ [] := by
  refine ⟨rfl, rfl, ?_⟩
  decide

/-- C8 (amended): when the save fails, the `setsound` operation reports
failure, but the in-memory mapping already holds the new entry — the
mutation precedes the save and is not rolled back (the other map is
untouched). -/
theorem C8_save_failure_keeps_mutation_amended (m : PreferenceMapping)
    (dir : Option (List String)) (sound channelId userId : String)
    (h : sound ∈ getAvailableSounds dir) :
    ((setsoundHandler m dir SetKind.user sound channelId userId false).2 = SetsoundReply.saveError ∧
     assocLookup (setsoundHandler m dir SetKind.user sound channelId userId false).1.userSounds userId
       = some sound ∧
     (setsoundHandler m dir SetKind.user sound channelId userId false).1.channelSounds
       = m.channelSounds) ∧
    ((setsoundHandler m dir SetKind.channel sound channelId userId false).2 = SetsoundReply.saveError ∧
     assocLookup (setsoundHandler m dir SetKind.channel sound channelId userId false).1.channelSounds channelId
       = some sound ∧
     (setsoundHandler m dir SetKind.channel sound channelId userId false).1.userSounds
       = m.userSounds) := by
  have hc : (getAvailableSounds dir).contains sound = true := contains_iff_mem.mpr h
  constructor
  · refine ⟨?_, ?_, ?_⟩
    · simp only [setsoundHandler, hc, Bool.not_true, Bool.false_eq_true, if_false, saveSoundMappings]
    · simp only [setsoundHandler, hc, Bool.not_true, Bool.false_eq_true, if_false, saveSoundMappings]
      exact assocLookup_assocSet_self m.userSounds userId sound
    · simp only [setsoundHandler, hc, Bool.not_true, Bool.false_eq_true, if_false, saveSoundMappings]
  · refine ⟨?_, ?_, ?_⟩
    · simp only [setsoundHandler, hc, Bool.not_true, Bool.false_eq_true, if_false, saveSoundMappings]
    · simp only [setsoundHandler, hc, Bool.not_true, Bool.false_eq_true, if_false, saveSoundMappings]
      exact assocLookup_assocSet_self m.channelSounds channelId sound
    · simp only [setsoundHandler, hc, Bool.not_true, Bool.false_eq_true, if_false, saveSoundMappings]

/-- Witness for C8: concrete failed save leaves the new user entry in
memory. -/
theorem C8_witness :
    (setsoundHandler { channelSounds := [("CX", "b.mp3")], userSounds := [], defaultSound := none }
      (some ["b.mp3"]) SetKind.user "b.mp3" "CX" "UX" false).2 = SetsoundReply.saveError ∧
    assocLookup (setsoundHandler { channelSounds := [("CX", "b.mp3")], userSounds := [], defaultSound := none }
      (some ["b.mp3"]) SetKind.user "b.mp3" "CX" "UX" false).1.userSounds "UX" = some "b.mp3" :=
  ⟨((C8_save_failure_keeps_mutation_amended
      { channelSounds := [("CX", "b.mp3")], userSounds := [], defaultSound := none }
      (some ["b.mp3"]) "b.mp3" "CX" "UX" (by decide)).1).1,
   ((C8_save_failure_keeps_mutation_amended
      { channelSounds := [("CX", "b.mp3")], userSounds := [], defaultSound := none }
      (some ["b.mp3"]) "b.mp3" "CX" "UX" (by decide)).1).2.1⟩

/-- C10 (confirmed): every entry readable from the mapping after a
`setsound` is either an entry of the prior mapping or the newly validated
sound, which at mutation time was an element of `getAvailableSounds()` and
hence a full filename ending in `.mp3`. -/
theorem C10_setsound_stores_validated (m : PreferenceMapping)
    (dir : Option (List String)) (ty : SetKind) (sound channelId userId key v : String)
    (saveOk : Bool) :
    (assocLookup (setsoundHandler m dir ty sound channelId userId saveOk).1.userSounds key = some v →
      assocLookup m.userSounds key = some v ∨
      (v = sound ∧ v ∈ getAvailableSounds dir ∧ jsEndsWith v ".mp3" = true)) ∧
    (assocLookup (setsoundHandler m dir ty sound channelId userId saveOk).1.channelSounds key = some v →
      assocLookup m.channelSounds key = some v ∨
      (v = sound ∧ v ∈ getAvailableSounds dir ∧ jsEndsWith v ".mp3" = true)) := by
  by_cases hc : (getAvailableSounds dir).contains sound = true
  · have hmem : sound ∈ getAvailableSounds dir := contains_iff_mem.mp hc
    have hends : jsEndsWith sound ".mp3" = true := endsWith_of_mem_getAvailableSounds hmem
    cases ty with
    | user =>
      have h1 : (setsoundHandler m dir SetKind.user sound channelId userId saveOk).1 =
          { m with userSounds := assocSet m.userSounds userId sound } := by
        simp only [setsoundHandler, hc, Bool.not_true, Bool.false_eq_true, if_false, saveSoundMappings]
        cases saveOk <;> rfl
      rw [h1]
      constructor
      · intro hlk
        by_cases hk : key = userId
        · subst hk
          rw [assocLookup_assocSet_self] at hlk
          right
          have hv : v = sound := by
            injection hlk with hlk2
            exact hlk2.symm
          exact ⟨hv, by rw [hv]; exact hmem, by rw [hv]; exact hends⟩
        · rw [assocLookup_assocSet_ne m.userSounds userId key sound hk] at hlk
          exact Or.inl hlk
      · intro hlk
        exact Or.inl hlk
    | channel =>
      have h1 : (setsoundHandler m dir SetKind.channel sound channelId userId saveOk).1 =
          { m with channelSounds := assocSet m.channelSounds channelId sound } := by
        simp only [setsoundHandler, hc, Bool.not_true, Bool.false_eq_true, if_false, saveSoundMappings]
        cases saveOk <;> rfl
      rw [h1]
      constructor
      · intro hlk
        exact Or.inl hlk
      · intro hlk
        by_cases hk : key = channelId
        · subst hk
          rw [assocLookup_assocSet_self] at hlk
          right
          have hv : v = sound := by
            injection hlk with hlk2
            exact hlk2.symm
          exact ⟨hv, by rw [hv]; exact hmem, by rw [hv]; exact hends⟩
        · rw [assocLookup_assocSet_ne m.channelSounds channelId key sound hk] at hlk
          exact Or.inl hlk
  · have h1 : setsoundHandler m dir ty sound channelId userId saveOk = (m, SetsoundReply.invalidSound) := by
      unfold setsoundHandler
      rw [if_pos]
      rw [Bool.eq_false_iff.mpr hc]
      rfl
    rw [h1]
    exact ⟨fun h2 => Or.inl h2, fun h2 => Or.inl h2⟩

/-- Witness for C10: after a concrete `setsound`, the stored value is the
validated catalog member. -/
theorem C10_witness :
    assocLookup (setsoundHandler { channelSounds := [], userSounds := [], defaultSound := none }
      (some ["d.mp3"]) SetKind.user "d.mp3" "C9" "U9" true).1.userSounds "U9" = some "d.mp3" →
    assocLookup ([] : List (String × String)) "U9" = some "d.mp3" ∨
    ("d.mp3" = "d.mp3" ∧ "d.mp3" ∈ getAvailableSounds (some ["d.mp3"]) ∧
      jsEndsWith "d.mp3" ".mp3" = true) :=
  (C10_setsound_stores_validated { channelSounds := [], userSounds := [], defaultSound := none }
    (some ["d.mp3"]) SetKind.user "d.mp3" "C9" "U9" "U9" "d.mp3" true).1

end UnrkBot

namespace UnrkBot

/-- C9 (confirmed): an attachment whose declared name does not end in
`.mp3` is rejected before any write; and after a successful add of a fresh
name, a second `addsound` with the same name is rejected with the
already-exists reply and no state change, the catalog listing the file
exactly once. -/
theorem C9_addsound_duplicate_and_extension (dir : List String)
    (attachmentName name : String) (fetchOk : Bool) :
    (jsEndsWith attachmentName ".mp3" = false →
      addsoundHandler dir attachmentName name fetchOk = (dir, AddsoundReply.notMp3)) ∧
    (jsEndsWith attachmentName ".mp3" = true → (name ++ ".mp3") ∉ dir →
      addsoundHandler dir attachmentName name true = (dir ++ [name ++ ".mp3"], AddsoundReply.added) ∧
      addsoundHandler (dir ++ [name ++ ".mp3"]) attachmentName name true =
        (dir ++ [name ++ ".mp3"], AddsoundReply.alreadyExists) ∧
      (getAvailableSounds (some (dir ++ [name ++ ".mp3"]))).count (name ++ ".mp3") = 1) := by
  constructor
  · intro hext
    unfold addsoundHandler
    rw [if_pos]
    rw [hext]
    rfl
  · intro hext hnot
    have hcont : dir.contains (name ++ ".mp3") = false := by
      rw [Bool.eq_false_iff]
      intro hcc
      exact hnot (contains_iff_mem.mp hcc)
    have hcont2 : (dir ++ [name ++ ".mp3"]).contains (name ++ ".mp3") = true :=
      contains_iff_mem.mpr (List.mem_append.mpr (Or.inr (List.mem_singleton.mpr rfl)))
    refine ⟨?_, ?_, ?_⟩
    · unfold addsoundHandler
      rw [if_neg, if_neg, if_pos rfl]
      · rw [hcont]
        exact Bool.false_ne_true
      · rw [hext]
        simp
    · unfold addsoundHandler
      rw [if_neg, if_pos]
      · rw [hcont2]
      · rw [hext]
        simp
    · have hmp3 : jsEndsWith (name ++ ".mp3") ".mp3" = true := jsEndsWith_append name ".mp3"
      rw [getAvailableSounds, List.filter_append, List.count_append]
      have h0 : (List.filter (fun f => jsEndsWith f ".mp3") dir).count (name ++ ".mp3") = 0 := by
        rw [List.count_eq_zero]
        intro hmem
        exact hnot (List.mem_filter.mp hmem).1
      rw [h0]
      rw [show List.filter (fun f => jsEndsWith f ".mp3") [name ++ ".mp3"] = [name ++ ".mp3"] by
        simp [List.filter, hmp3]]
      simp [List.count_singleton]

/-- Witness for C9: concrete double add of `x` and a concrete bad-extension
rejection. -/
theorem C9_witness :
    (addsoundHandler ["y.mp3"] "chime.wav" "x" true = (["y.mp3"], AddsoundReply.notMp3)) ∧
    (addsoundHandler ["y.mp3"] "chime.mp3" "x" true = (["y.mp3", "x.mp3"], AddsoundReply.added) ∧
     addsoundHandler ["y.mp3", "x.mp3"] "chime.mp3" "x" true = (["y.mp3", "x.mp3"], AddsoundReply.alreadyExists) ∧
     (getAvailableSounds (some ["y.mp3", "x.mp3"])).count "x.mp3" = 1) :=
  ⟨(C9_addsound_duplicate_and_extension ["y.mp3"] "chime.wav" "x" true).1 (by decide),
   (C9_addsound_duplicate_and_extension ["y.mp3"] "chime.mp3" "x" true).2 (by decide) (by decide)⟩

end UnrkBot

namespace UnrkBot

/-- C4, counterexample to the claim as stated: a `random` subcommand whose
Ready wait fails reports failure, but the just-created connection 0 stays
in the registry and is never destroyed. -/
theorem C4_counterexample :
    (randomCmdStep initialState "G" (some "C") false (some ["a.mp3"]) 0).2 =
      RandomReply.joinFailed ∧
    assocLookup (randomCmdStep initialState "G" (some "C") false (some ["a.mp3"]) 0).1.active "G" =
      some 0 ∧
    connLive (randomCmdStep initialState "G" (some "C") false (some ["a.mp3"]) 0).1 0 = true := by
  refine ⟨rfl, rfl, rfl⟩

/-- C4 (amended): when the bounded Ready wait of the `random` subcommand
times out or errors, the invoking path receives the failure outcome and no
retry occurs (a single connection is created), but the session is not
destroyed and the registry entry is not removed: the fresh connection
remains registered and live. -/
theorem C4_ready_timeout_amended (s : BotState) (g ch : String)
    (dir : Option (List String)) (rand : Nat)
    (h : assocLookup s.active g = none) (hlive : getLiveConn s.conns g = none) :
    (randomCmdStep s g (some ch) false dir rand).2 = RandomReply.joinFailed ∧
    (randomCmdStep s g (some ch) false dir rand).1.conns =
      s.conns ++ [Conn.mk s.nextId g false] ∧
    assocLookup (randomCmdStep s g (some ch) false dir rand).1.active g = some s.nextId ∧
    connLive (randomCmdStep s g (some ch) false dir rand).1 s.nextId = true := by
  have hstep : randomCmdStep s g (some ch) false dir rand =
      ((joinAndStore s g).1, RandomReply.joinFailed) := by
    unfold randomCmdStep
    rw [h]
    rfl
  have hjs : joinAndStore s g =
      (BotState.mk (s.conns ++ [Conn.mk s.nextId g false])
        (assocSet s.active g s.nextId) s.onceHandlers (s.nextId + 1), s.nextId) := by
    unfold joinAndStore joinVoiceChannel
    rw [hlive]
  rw [hstep, hjs]
  refine ⟨rfl, rfl, ?_, ?_⟩
  · show assocLookup (assocSet s.active g s.nextId) g = some s.nextId
    exact assocLookup_assocSet_self s.active g s.nextId
  · show (s.conns ++ [Conn.mk s.nextId g false]).any
      (fun c => c.id == s.nextId && !c.destroyed) = true
    rw [List.any_append]
    simp

/-- Witness for C4: the concrete failed Ready wait leaves the entry
registered. -/
theorem C4_witness :
    assocLookup (randomCmdStep (BotState.mk [] [] [] 3)
      "G2" (some "C2") false none 7).1.active "G2" = some 3 :=
  (C4_ready_timeout_amended (BotState.mk [] [] [] 3)
    "G2" "C2" none 7 (by decide) (by decide)).2.2.1

end UnrkBot

namespace UnrkBot

/-- C5 (evaluating the code at the failing input): a session joins, turns
Ready, and starts playback registering its once-listener; the player then
emits the ordinary `buffering to playing` change followed by
`playing to idle`.  The once-listener is consumed by the first, non-idle
change, so on idle the connection is NOT destroyed and the registry entry
for `G` remains.  By contrast, when the very next change is already
`idle`, teardown happens — the teardown depends on no intermediate state
change occurring, contradicting the claim and the source comment
"Handle when the audio finishes playing". -/
theorem C5_once_listener_misses_idle :
    run { channelSounds := [], userSounds := [], defaultSound := none } (some ["a.mp3"])
      [Event.voiceUpdate "G" none (some "A") 1,
       Event.connectionReady "G" 0 "U" "A" 0,
       Event.playerStateChange PlayerStatus.playing,
       Event.playerStateChange PlayerStatus.idle] =
      BotState.mk [Conn.mk 0 "G" false] [("G", 0)] [] 1 ∧
    run { channelSounds := [], userSounds := [], defaultSound := none } (some ["a.mp3"])
      [Event.voiceUpdate "G" none (some "A") 1,
       Event.connectionReady "G" 0 "U" "A" 0,
       Event.playerStateChange PlayerStatus.idle] =
      BotState.mk [Conn.mk 0 "G" true] [] [] 1 := by
  refine ⟨rfl, rfl⟩

/-- C6, counterexample to the claim as stated: with a live session for `G`,
a member moves from channel `A` to channel `B` leaving `A` with zero
non-bot occupants; the handler takes neither branch, so the session is not
destroyed and the registry entry remains. -/
theorem C6_counterexample :
    voiceStateUpdateStep (BotState.mk [Conn.mk 0 "G" false] [("G", 0)] [] 1)
      "G" (some "A") (some "B") 0 =
      BotState.mk [Conn.mk 0 "G" false] [("G", 0)] [] 1 ∧
    assocLookup ([("G", 0)] : List (String × Nat)) "G" = some 0 ∧
    connLive (BotState.mk [Conn.mk 0 "G" false] [("G", 0)] [] 1) 0 = true := by
  refine ⟨rfl, rfl, rfl⟩

/-- C6 (amended): a leave event tears the session down only on a full
disconnect — when the member's new channel is empty, the old channel is
set, a registry entry exists, and the old channel retains zero non-bot
occupants, the connection is destroyed and the entry removed; an event in
which the member merely moves to another channel (both channel ids set)
never changes the state, regardless of occupancy. -/
theorem C6_full_disconnect_teardown_amended (s : BotState) (g o n : String)
    (cid : Nat) (nb : Nat) :
    (assocLookup s.active g = some cid →
      voiceStateUpdateStep s g (some o) none 0 = teardown s cid g ∧
      assocLookup (voiceStateUpdateStep s g (some o) none 0).active g = none ∧
      connLive (voiceStateUpdateStep s g (some o) none 0) cid = false) ∧
    voiceStateUpdateStep s g (some o) (some n) nb = s := by
  constructor
  · intro h
    have hstep : voiceStateUpdateStep s g (some o) none 0 = teardown s cid g := by
      unfold voiceStateUpdateStep
      rw [h]
      rfl
    refine ⟨hstep, ?_, ?_⟩
    · rw [hstep]
      show assocLookup (assocDelete s.active g) g = none
      exact assocLookup_assocDelete_self s.active g
    · rw [hstep]
      exact connLive_teardown_self s cid g
  · rfl

/-- Witness for C6: a concrete full disconnect with the origin channel
left empty removes the registry entry. -/
theorem C6_witness :
    assocLookup (voiceStateUpdateStep (BotState.mk [Conn.mk 2 "G3" false] [("G3", 2)] [] 3)
      "G3" (some "A3") none 0).active "G3" = none :=
  ((C6_full_disconnect_teardown_amended (BotState.mk [Conn.mk 2 "G3" false] [("G3", 2)] [] 3)
    "G3" "A3" "B3" 2 0).1 (by decide)).2.1

end UnrkBot

/- Lemmas supporting the session-registry invariant. -/

namespace UnrkBot

theorem mem_assocSet {α : Type} {m : List (String × α)} {k : String} {v : α} {p : String × α}
    (h : p ∈ assocSet m k v) : p ∈ m ∨ p = (k, v) := by
  rw [assocSet] at h
  by_cases hc : m.any (fun q => q.1 == k) = true
  · rw [if_pos hc] at h
    rcases List.mem_map.mp h with ⟨q, hq, hqe⟩
    by_cases hqk : (q.1 == k) = true
    · rw [if_pos hqk] at hqe
      exact Or.inr hqe.symm
    · rw [if_neg hqk] at hqe
      rw [← hqe]
      exact Or.inl hq
  · rw [if_neg hc] at h
    rcases List.mem_append.mp h with h2 | h2
    · exact Or.inl h2
    · exact Or.inr (List.mem_singleton.mp h2)

theorem getLiveConn_some {l : List Conn} {g : String} {cid : Nat}
    (h : getLiveConn l g = some cid) :
    ∃ c ∈ l, c.id = cid ∧ c.guild = g ∧ c.destroyed = false := by
  rw [getLiveConn] at h
  cases hf : l.find? (fun c => c.guild == g && !c.destroyed) with
  | none =>
    rw [hf] at h
    exact absurd h (by simp)
  | some c =>
    rw [hf] at h
    have hp := List.find?_some hf
    rw [Bool.and_eq_true, Bool.not_eq_true'] at hp
    refine ⟨c, List.mem_of_find?_eq_some hf, ?_, eq_of_beq hp.1, hp.2⟩
    simpa using h

theorem getLiveConn_none {l : List Conn} {g : String}
    (h : getLiveConn l g = none) :
    ∀ c ∈ l, c.guild = g → c.destroyed = true := by
  intro c hc hg
  rw [getLiveConn] at h
  cases hf : l.find? (fun c => c.guild == g && !c.destroyed) with
  | some c2 =>
    rw [hf] at h
    exact absurd h (by simp)
  | none =>
    have hnc := List.find?_eq_none.mp hf c hc
    rw [Bool.and_eq_true, Bool.not_eq_true'] at hnc
    by_contra hd
    apply hnc
    refine ⟨by rw [hg]; simp, Bool.eq_false_iff.mpr hd⟩

theorem connLive_iff {s : BotState} {cid : Nat} :
    connLive s cid = true ↔ ∃ c ∈ s.conns, c.id = cid ∧ c.destroyed = false := by
  rw [connLive, List.any_eq_true]
  constructor
  · rintro ⟨c, hc, hp⟩
    rw [Bool.and_eq_true, Bool.not_eq_true'] at hp
    exact ⟨c, hc, eq_of_beq hp.1, hp.2⟩
  · rintro ⟨c, hc, hid, hd⟩
    refine ⟨c, hc, ?_⟩
    rw [Bool.and_eq_true, Bool.not_eq_true']
    exact ⟨by rw [hid]; simp, hd⟩

theorem mem_destroyConn {l : List Conn} {cid : Nat} {c : Conn}
    (h : c ∈ destroyConn l cid) :
    ∃ c0 ∈ l, c.id = c0.id ∧ c.guild = c0.guild := by
  rw [destroyConn] at h
  rcases List.mem_map.mp h with ⟨c0, hc0, hce⟩
  by_cases hc0id : (c0.id == cid) = true
  · rw [if_pos hc0id] at hce
    exact ⟨c0, hc0, by rw [← hce], by rw [← hce]⟩
  · rw [if_neg hc0id] at hce
    exact ⟨c0, hc0, by rw [← hce], by rw [← hce]⟩

theorem destroyConn_mem_of_mem {l : List Conn} {cid : Nat} {c0 : Conn} (h : c0 ∈ l) :
    ∃ c ∈ destroyConn l cid, c.id = c0.id ∧ c.guild = c0.guild := by
  refine ⟨if (c0.id == cid) = true then { c0 with destroyed := true } else c0,
    List.mem_map.mpr ⟨c0, h, rfl⟩, ?_, ?_⟩
  · split
    · rfl
    · rfl
  · split
    · rfl
    · rfl

theorem live_mem_of_mem_destroyConn {l : List Conn} {cid : Nat} {c : Conn}
    (h : c ∈ destroyConn l cid) (hlive : c.destroyed = false) : c ∈ l := by
  rw [destroyConn] at h
  rcases List.mem_map.mp h with ⟨c0, hc0, hce⟩
  by_cases hid : (c0.id == cid) = true
  · rw [if_pos hid] at hce
    rw [← hce] at hlive
    simp at hlive
  · rw [if_neg hid] at hce
    rw [← hce]
    exact hc0

theorem ids_destroyConn (l : List Conn) (cid : Nat) :
    (destroyConn l cid).map Conn.id = l.map Conn.id := by
  rw [destroyConn, List.map_map]
  apply List.map_congr_left
  intro c _
  by_cases hid : (c.id == cid) = true
  · simp only [Function.comp, if_pos hid]
  · simp only [Function.comp, if_neg hid]

end UnrkBot

namespace UnrkBot

theorem stateInv_congr {s1 s2 : BotState} (h : StateInv s1)
    (hc : s2.conns = s1.conns) (ha : s2.active = s1.active)
    (hn : s2.nextId = s1.nextId) : StateInv s2 := by
  obtain ⟨hI1, hI2, hI3, hI4⟩ := h
  refine ⟨?_, ?_, ?_, ?_⟩
  · rw [hc, hn]
    exact hI1
  · rw [hc]
    exact hI2
  · rw [ha, hc]
    exact hI3
  · rw [hc]
    exact hI4

theorem teardown_inv (s : BotState) (cid : Nat) (g : String)
    (h : StateInv s) : StateInv (teardown s cid g) := by
  obtain ⟨hI1, hI2, hI3, hI4⟩ := h
  refine ⟨?_, ?_, ?_, ?_⟩
  · intro c hc
    obtain ⟨c0, hc0, hid, _⟩ := mem_destroyConn hc
    show c.id < s.nextId
    rw [hid]
    exact hI1 c0 hc0
  · show ((destroyConn s.conns cid).map Conn.id).Nodup
    rw [ids_destroyConn]
    exact hI2
  · intro p hp
    have hp2 : p ∈ assocDelete s.active g := hp
    rw [assocDelete] at hp2
    have hpm : p ∈ s.active := (List.mem_filter.mp hp2).1
    obtain ⟨c0, hc0, hcid, hcg⟩ := hI3 p hpm
    obtain ⟨c, hc, hcid2, hcg2⟩ := @destroyConn_mem_of_mem s.conns cid c0 hc0
    exact ⟨c, hc, by rw [hcid2, hcid], by rw [hcg2, hcg]⟩
  · intro c1 hc1 c2 hc2 hd1 hd2 hg
    have h1 := live_mem_of_mem_destroyConn hc1 hd1
    have h2 := live_mem_of_mem_destroyConn hc2 hd2
    exact hI4 c1 h1 c2 h2 hd1 hd2 hg

theorem joinAndStore_inv (s : BotState) (g : String) (h : StateInv s) :
    StateInv (joinAndStore s g).1 := by
  obtain ⟨hI1, hI2, hI3, hI4⟩ := h
  cases hl : getLiveConn s.conns g with
  | some cid =>
    have hjs : joinAndStore s g = (BotState.mk s.conns (assocSet s.active g cid)
        s.onceHandlers s.nextId, cid) := by
      unfold joinAndStore joinVoiceChannel
      rw [hl]
    rw [hjs]
    obtain ⟨c, hcmem, hcid, hcg, hcd⟩ := getLiveConn_some hl
    refine ⟨hI1, hI2, ?_, hI4⟩
    intro p hp
    rcases mem_assocSet hp with hp2 | hp2
    · exact hI3 p hp2
    · rw [hp2]
      exact ⟨c, hcmem, hcid, hcg⟩
  | none =>
    have hjs : joinAndStore s g = (BotState.mk (s.conns ++ [Conn.mk s.nextId g false])
        (assocSet s.active g s.nextId) s.onceHandlers (s.nextId + 1), s.nextId) := by
      unfold joinAndStore joinVoiceChannel
      rw [hl]
    rw [hjs]
    have hnew := getLiveConn_none hl
    refine ⟨?_, ?_, ?_, ?_⟩
    · intro c hc
      rcases List.mem_append.mp hc with hc2 | hc2
      · exact Nat.lt_succ_of_lt (hI1 c hc2)
      · rw [List.mem_singleton.mp hc2]
        exact Nat.lt_succ_self s.nextId
    · show ((s.conns ++ [Conn.mk s.nextId g false]).map Conn.id).Nodup
      rw [List.map_append, List.map_singleton, List.nodup_append]
      refine ⟨hI2, List.nodup_singleton _, ?_⟩
      rw [List.disjoint_singleton]
      intro hmem
      rcases List.mem_map.mp hmem with ⟨c, hc, hce⟩
      have := hI1 c hc
      rw [hce] at this
      exact Nat.lt_irrefl _ this
    · intro p hp
      rcases mem_assocSet hp with hp2 | hp2
      · obtain ⟨c, hc, h1, h2⟩ := hI3 p hp2
        exact ⟨c, List.mem_append.mpr (Or.inl hc), h1, h2⟩
      · rw [hp2]
        exact ⟨Conn.mk s.nextId g false,
          List.mem_append.mpr (Or.inr (List.mem_singleton.mpr rfl)), rfl, rfl⟩
    · intro c1 hc1 c2 hc2 hd1 hd2 hg
      rcases List.mem_append.mp hc1 with h1 | h1 <;> rcases List.mem_append.mp hc2 with h2 | h2
      · exact hI4 c1 h1 c2 h2 hd1 hd2 hg
      · exfalso
        have h2e := List.mem_singleton.mp h2
        have hcg : c1.guild = g := by rw [hg, h2e]
        have hdead := hnew c1 h1 hcg
        rw [hd1] at hdead
        exact Bool.false_ne_true hdead
      · exfalso
        have h1e := List.mem_singleton.mp h1
        have hcg : c2.guild = g := by rw [← hg, h1e]
        have hdead := hnew c2 h2 hcg
        rw [hd2] at hdead
        exact Bool.false_ne_true hdead
      · rw [List.mem_singleton.mp h1, List.mem_singleton.mp h2]

theorem connectionErrorStep_inv (s : BotState) (g : String) (h : StateInv s) :
    StateInv (connectionErrorStep s g) := by
  obtain ⟨hI1, hI2, hI3, hI4⟩ := h
  refine ⟨hI1, hI2, ?_, hI4⟩
  intro p hp
  have hp2 : p ∈ assocDelete s.active g := hp
  rw [assocDelete] at hp2
  exact hI3 p (List.mem_filter.mp hp2).1

theorem randomPlayPart_fields (s : BotState) (g : String) (cid : Nat)
    (dir : Option (List String)) (rand : Nat) :
    (randomPlayPart s g cid dir rand).1.conns = s.conns ∧
    (randomPlayPart s g cid dir rand).1.active = s.active ∧
    (randomPlayPart s g cid dir rand).1.nextId = s.nextId := by
  unfold randomPlayPart
  split
  · split
    · exact ⟨rfl, rfl, rfl⟩
    · exact ⟨rfl, rfl, rfl⟩
  · exact ⟨rfl, rfl, rfl⟩

theorem step_inv (m : PreferenceMapping) (dir : Option (List String))
    (s : BotState) (e : Event) (h : StateInv s) : StateInv (step m dir s e) := by
  cases e with
  | voiceUpdate g o n nb =>
    show StateInv (voiceStateUpdateStep s g o n nb)
    unfold voiceStateUpdateStep
    split
    · exact joinAndStore_inv s g h
    · split
      · split
        · exact teardown_inv _ _ _ h
        · exact h
      · exact h
    · exact h
  | stopCmd g =>
    show StateInv (stopStep s g).1
    unfold stopStep
    split
    · exact teardown_inv _ _ _ h
    · exact h
  | randomCmd g mc ok rand =>
    show StateInv (randomCmdStep s g mc ok dir rand).1
    unfold randomCmdStep
    split
    · exact h
    · split
      · exact stateInv_congr h (randomPlayPart_fields _ _ _ _ _).1
          (randomPlayPart_fields _ _ _ _ _).2.1 (randomPlayPart_fields _ _ _ _ _).2.2
      · split
        · exact stateInv_congr (joinAndStore_inv s g h) (randomPlayPart_fields _ _ _ _ _).1
            (randomPlayPart_fields _ _ _ _ _).2.1 (randomPlayPart_fields _ _ _ _ _).2.2
        · exact joinAndStore_inv s g h
  | connectionReady g cid u c rand =>
    show StateInv (connectionReadyStep s g cid m dir u c rand)
    unfold connectionReadyStep
    split
    · exact teardown_inv _ _ _ h
    · split
      · exact stateInv_congr h rfl rfl rfl
      · exact teardown_inv _ _ _ h
  | playerStateChange st =>
    show StateInv (playerStateChangeStep s st)
    unfold playerStateChangeStep
    have hfold : ∀ (hs2 : List (String × Nat)) (s2 : BotState), StateInv s2 →
        StateInv (hs2.foldl (fun acc h2 => teardown acc h2.2 h2.1) s2) := by
      intro hs2
      induction hs2 with
      | nil => intro s2 h2; exact h2
      | cons p rest ih =>
        intro s2 h2
        exact ih _ (teardown_inv s2 p.2 p.1 h2)
    split
    · exact hfold s.onceHandlers _ (stateInv_congr h rfl rfl rfl)
    · exact stateInv_congr h rfl rfl rfl
  | connectionDisconnected g cid ok =>
    show StateInv (connectionDisconnectedStep s g cid ok)
    unfold connectionDisconnectedStep
    split
    · exact h
    · exact teardown_inv _ _ _ h
  | connectionError g =>
    exact connectionErrorStep_inv s g h

theorem run_inv (m : PreferenceMapping) (dir : Option (List String))
    (events : List Event) : StateInv (run m dir events) := by
  rw [run]
  have hgen : ∀ (es : List Event) (s : BotState), StateInv s →
      StateInv (es.foldl (step m dir) s) := by
    intro es
    induction es with
    | nil => intro s h; exact h
    | cons e rest ih =>
      intro s h
      exact ih _ (step_inv m dir s e h)
  refine hgen events initialState ?_
  refine ⟨?_, ?_, ?_, ?_⟩
  · intro c hc
    simp [initialState] at hc
  · simp [initialState]
  · intro p hp
    simp [initialState] at hp
  · intro c1 hc1
    simp [initialState] at hc1

end UnrkBot

namespace UnrkBot

theorem getLiveConn_of_entry_live {s : BotState} {g : String} {cid : Nat}
    (hinv : StateInv s) (hlk : assocLookup s.active g = some cid)
    (hlive : connLive s cid = true) : getLiveConn s.conns g = some cid := by
  obtain ⟨hI1, hI2, hI3, hI4⟩ := hinv
  have hentry : (g, cid) ∈ s.active := by
    rw [assocLookup] at hlk
    cases hf : s.active.find? (fun p => p.1 == g) with
    | none =>
      rw [hf] at hlk
      exact absurd hlk (by simp)
    | some p =>
      rw [hf] at hlk
      have hp0 : (p.1 == g) = true := by
        have h0 := List.find?_some hf
        simpa using h0
      have hp1 : p.1 = g := eq_of_beq hp0
      have hp2 : p.2 = cid := by simpa using hlk
      have hm := List.mem_of_find?_eq_some hf
      rw [← hp1, ← hp2]
      exact hm
  obtain ⟨c, hcmem, hcid, hcg⟩ := hI3 (g, cid) hentry
  obtain ⟨c2, hc2mem, hc2id, hc2d⟩ := connLive_iff.mp hlive
  have hceq : c = c2 :=
    List.inj_on_of_nodup_map hI2 hcmem hc2mem (by show c.id = c2.id; rw [hcid, hc2id])
  rw [hceq] at hcid hcg
  cases hf : s.conns.find? (fun c0 => c0.guild == g && !c0.destroyed) with
  | none =>
    exfalso
    have hnc := List.find?_eq_none.mp hf c2 hc2mem
    rw [Bool.and_eq_true, Bool.not_eq_true'] at hnc
    exact hnc ⟨by rw [hcg]; simp, hc2d⟩
  | some c0 =>
    have hc0mem := List.mem_of_find?_eq_some hf
    have hc0p := List.find?_some hf
    rw [Bool.and_eq_true, Bool.not_eq_true'] at hc0p
    have hc0eq : c0 = c2 :=
      hI4 c0 hc0mem c2 hc2mem hc0p.2 hc2d (by rw [eq_of_beq hc0p.1, hcg])
    rw [getLiveConn, hf, hc0eq]
    simp [hcid]

theorem joinAndStore_fresh {s : BotState} {g : String} {c : Conn}
    (hc : c ∈ (joinAndStore s g).1.conns) (hfresh : ∀ c0 ∈ s.conns, c0.id ≠ c.id) :
    getLiveConn s.conns c.guild = none := by
  cases hl : getLiveConn s.conns g with
  | some cid =>
    have hjs : joinAndStore s g = (BotState.mk s.conns (assocSet s.active g cid)
        s.onceHandlers s.nextId, cid) := by
      unfold joinAndStore joinVoiceChannel
      rw [hl]
    rw [hjs] at hc
    exact absurd rfl (hfresh c hc)
  | none =>
    have hjs : joinAndStore s g = (BotState.mk (s.conns ++ [Conn.mk s.nextId g false])
        (assocSet s.active g s.nextId) s.onceHandlers (s.nextId + 1), s.nextId) := by
      unfold joinAndStore joinVoiceChannel
      rw [hl]
    rw [hjs] at hc
    rcases List.mem_append.mp hc with h2 | h2
    · exact absurd rfl (hfresh c h2)
    · rw [List.mem_singleton.mp h2]
      exact hl

theorem old_id_of_mem_teardown {s : BotState} {cid : Nat} {g : String} {c : Conn}
    (hc : c ∈ (teardown s cid g).conns) : ∃ c0 ∈ s.conns, c0.id = c.id := by
  obtain ⟨c0, hc0, hid, _⟩ := mem_destroyConn hc
  exact ⟨c0, hc0, hid.symm⟩

theorem old_id_of_mem_foldl_teardown :
    ∀ (hs : List (String × Nat)) (s2 : BotState) (c : Conn),
      c ∈ (hs.foldl (fun acc h2 => teardown acc h2.2 h2.1) s2).conns →
      ∃ c0 ∈ s2.conns, c0.id = c.id := by
  intro hs
  induction hs with
  | nil =>
    intro s2 c hc
    exact ⟨c, hc, rfl⟩
  | cons p rest ih =>
    intro s2 c hc
    obtain ⟨c1, hc1, hid⟩ := ih _ c hc
    obtain ⟨c0, hc0, hid0⟩ := old_id_of_mem_teardown hc1
    exact ⟨c0, hc0, by rw [hid0, hid]⟩

theorem step_fresh_conn (m : PreferenceMapping) (dir : Option (List String))
    (s : BotState) (e : Event) (c : Conn)
    (hc : c ∈ (step m dir s e).conns) (hfresh : ∀ c0 ∈ s.conns, c0.id ≠ c.id) :
    getLiveConn s.conns c.guild = none := by
  cases e with
  | voiceUpdate g o n nb =>
    have hc2 : c ∈ (voiceStateUpdateStep s g o n nb).conns := hc
    unfold voiceStateUpdateStep at hc2
    split at hc2
    · exact joinAndStore_fresh hc2 hfresh
    · split at hc2
      · split at hc2
        · obtain ⟨c0, hc0, hid⟩ := old_id_of_mem_teardown hc2
          exact absurd hid (hfresh c0 hc0)
        · exact absurd rfl (hfresh c hc2)
      · exact absurd rfl (hfresh c hc2)
    · exact absurd rfl (hfresh c hc2)
  | stopCmd g =>
    have hc2 : c ∈ ((stopStep s g).1).conns := hc
    unfold stopStep at hc2
    split at hc2
    · obtain ⟨c0, hc0, hid⟩ := old_id_of_mem_teardown hc2
      exact absurd hid (hfresh c0 hc0)
    · exact absurd rfl (hfresh c hc2)
  | randomCmd g mc ok rand =>
    have hc2 : c ∈ ((randomCmdStep s g mc ok dir rand).1).conns := hc
    unfold randomCmdStep at hc2
    split at hc2
    · exact absurd rfl (hfresh c hc2)
    · split at hc2
      · rw [(randomPlayPart_fields _ _ _ _ _).1] at hc2
        exact absurd rfl (hfresh c hc2)
      · split at hc2
        · rw [(randomPlayPart_fields _ _ _ _ _).1] at hc2
          exact joinAndStore_fresh hc2 hfresh
        · exact joinAndStore_fresh hc2 hfresh
  | connectionReady g cid u ch rand =>
    have hc2 : c ∈ (connectionReadyStep s g cid m dir u ch rand).conns := hc
    unfold connectionReadyStep at hc2
    split at hc2
    · obtain ⟨c0, hc0, hid⟩ := old_id_of_mem_teardown hc2
      exact absurd hid (hfresh c0 hc0)
    · split at hc2
      · exact absurd rfl (hfresh c hc2)
      · obtain ⟨c0, hc0, hid⟩ := old_id_of_mem_teardown hc2
        exact absurd hid (hfresh c0 hc0)
  | playerStateChange st =>
    have hc2 : c ∈ (playerStateChangeStep s st).conns := hc
    unfold playerStateChangeStep at hc2
    split at hc2
    · obtain ⟨c0, hc0, hid⟩ := old_id_of_mem_foldl_teardown s.onceHandlers _ c hc2
      exact absurd hid (hfresh c0 hc0)
    · exact absurd rfl (hfresh c hc2)
  | connectionDisconnected g cid ok =>
    have hc2 : c ∈ (connectionDisconnectedStep s g cid ok).conns := hc
    unfold connectionDisconnectedStep at hc2
    split at hc2
    · exact absurd rfl (hfresh c hc2)
    · obtain ⟨c0, hc0, hid⟩ := old_id_of_mem_teardown hc2
      exact absurd hid (hfresh c0 hc0)
  | connectionError g =>
    exact absurd rfl (hfresh c hc)

end UnrkBot

namespace UnrkBot

/-- C3 (confirmed): after any sequence of events from the fresh process
state, the `activeConnections` registry — a keyed map — holds at most one
entry per group id (its key list has no duplicates); any connection the
next event creates (one whose id is new) is created only when every
registered connection for its guild is absent or already destroyed; and a
join event for a group whose registered connection is live creates no
connection at all — the same connection stays registered (the voice
library returns the existing non-destroyed connection for the guild). -/
theorem C3_at_most_one_live_session (m : PreferenceMapping)
    (dir : Option (List String)) (events : List Event) :
    (((run m dir events).active.map Prod.fst).Nodup) ∧
    (∀ (e : Event) (c : Conn), c ∈ (step m dir (run m dir events) e).conns →
      (∀ c0 ∈ (run m dir events).conns, c0.id ≠ c.id) →
      ∀ cid, assocLookup (run m dir events).active c.guild = some cid →
        connLive (run m dir events) cid = false) ∧
    (∀ (g ch : String) (nb : Nat) (cid : Nat),
      assocLookup (run m dir events).active g = some cid →
      connLive (run m dir events) cid = true →
      (voiceStateUpdateStep (run m dir events) g none (some ch) nb).conns =
        (run m dir events).conns ∧
      assocLookup (voiceStateUpdateStep (run m dir events) g none (some ch) nb).active g
        = some cid) := by
  refine ⟨run_keys_nodup m dir events, ?_, ?_⟩
  · intro e c hc hfresh cid hlk
    have hnone := step_fresh_conn m dir (run m dir events) e c hc hfresh
    cases hb : connLive (run m dir events) cid with
    | false => rfl
    | true =>
      exfalso
      have hsome := getLiveConn_of_entry_live (run_inv m dir events) hlk hb
      rw [hnone] at hsome
      exact absurd hsome (by simp)
  · intro g ch nb cid hlk hlive
    have hl := getLiveConn_of_entry_live (run_inv m dir events) hlk hlive
    have hjs : joinAndStore (run m dir events) g =
        (BotState.mk (run m dir events).conns
          (assocSet (run m dir events).active g cid)
          (run m dir events).onceHandlers (run m dir events).nextId, cid) := by
      unfold joinAndStore joinVoiceChannel
      rw [hl]
    constructor
    · show ((joinAndStore (run m dir events) g).1).conns = (run m dir events).conns
      rw [hjs]
    · show assocLookup ((joinAndStore (run m dir events) g).1).active g = some cid
      rw [hjs]
      exact assocLookup_assocSet_self (run m dir events).active g cid

/-- Witness for C3: with a live session for `G` created by one join event,
a second join event for `G` creates no connection (same connection list)
and the registry entry still names connection 0. -/
theorem C3_reuse_witness :
    (voiceStateUpdateStep (run { channelSounds := [], userSounds := [], defaultSound := none }
        (some ["a.mp3"]) [Event.voiceUpdate "G" none (some "A") 1]) "G" none (some "A") 2).conns =
      (run { channelSounds := [], userSounds := [], defaultSound := none }
        (some ["a.mp3"]) [Event.voiceUpdate "G" none (some "A") 1]).conns :=
  ((C3_at_most_one_live_session { channelSounds := [], userSounds := [], defaultSound := none }
    (some ["a.mp3"]) [Event.voiceUpdate "G" none (some "A") 1]).2.2 "G" "A" 2 0
    (by decide) (by decide)).1

end UnrkBot
